import Mathlib

/-!
# Verification of the fan-out/fan-in streaming engine of `api-test`

Shallow embedding of the dispatch / streaming-aggregation core of the
repository: `app/services/langgraph.py` (status builders, per-provider call
nodes, `NODE_CONFIG`, `_normalize_messages`, `stream_graph`) and
`app/api/routes.py` (`ask_question`, the `response_stream` aggregation fold).

Python values that flow through the untyped parts of the code (message
tuples, metadata dictionaries) are modelled by `PyVal`; Python truthiness
(`or`-chains, `if status:` checks) is modelled by `pyTruthy`/`pyOr`; the
network side of a provider call is an explicit `InvokeResult` input, and the
sequence of LangGraph events that one round's `astream` produces - possibly
interrupted by an orchestration fault - is an explicit `RoundTrace` input.
-/

/-- A dynamic Python value: `None`, an `int`, a `str`, a `list`, or a
`tuple`.  Used for message entries and response-metadata dictionaries. -/
inductive PyVal where
  | vNone : PyVal
  | vInt (n : Int) : PyVal
  | vStr (s : String) : PyVal
  | vList (xs : List PyVal) : PyVal
  | vTuple (xs : List PyVal) : PyVal

mutual
/-- Decidable equality of dynamic values (hand-written because of the
nested `List`). -/
def pyValDecEq : (a b : PyVal) → Decidable (a = b)
  | .vNone, .vNone => isTrue rfl
  | .vNone, .vInt _ => isFalse (fun h => PyVal.noConfusion h)
  | .vNone, .vStr _ => isFalse (fun h => PyVal.noConfusion h)
  | .vNone, .vList _ => isFalse (fun h => PyVal.noConfusion h)
  | .vNone, .vTuple _ => isFalse (fun h => PyVal.noConfusion h)
  | .vInt _, .vNone => isFalse (fun h => PyVal.noConfusion h)
  | .vInt n, .vInt m =>
      match decEq n m with
      | isTrue h => isTrue (h ▸ rfl)
      | isFalse h => isFalse (fun he => h (PyVal.vInt.inj he))
  | .vInt _, .vStr _ => isFalse (fun h => PyVal.noConfusion h)
  | .vInt _, .vList _ => isFalse (fun h => PyVal.noConfusion h)
  | .vInt _, .vTuple _ => isFalse (fun h => PyVal.noConfusion h)
  | .vStr _, .vNone => isFalse (fun h => PyVal.noConfusion h)
  | .vStr _, .vInt _ => isFalse (fun h => PyVal.noConfusion h)
  | .vStr s, .vStr t =>
      match decEq s t with
      | isTrue h => isTrue (h ▸ rfl)
      | isFalse h => isFalse (fun he => h (PyVal.vStr.inj he))
  | .vStr _, .vList _ => isFalse (fun h => PyVal.noConfusion h)
  | .vStr _, .vTuple _ => isFalse (fun h => PyVal.noConfusion h)
  | .vList _, .vNone => isFalse (fun h => PyVal.noConfusion h)
  | .vList _, .vInt _ => isFalse (fun h => PyVal.noConfusion h)
  | .vList _, .vStr _ => isFalse (fun h => PyVal.noConfusion h)
  | .vList xs, .vList ys =>
      match pyValListDecEq xs ys with
      | isTrue h => isTrue (h ▸ rfl)
      | isFalse h => isFalse (fun he => h (PyVal.vList.inj he))
  | .vList _, .vTuple _ => isFalse (fun h => PyVal.noConfusion h)
  | .vTuple _, .vNone => isFalse (fun h => PyVal.noConfusion h)
  | .vTuple _, .vInt _ => isFalse (fun h => PyVal.noConfusion h)
  | .vTuple _, .vStr _ => isFalse (fun h => PyVal.noConfusion h)
  | .vTuple _, .vList _ => isFalse (fun h => PyVal.noConfusion h)
  | .vTuple xs, .vTuple ys =>
      match pyValListDecEq xs ys with
      | isTrue h => isTrue (h ▸ rfl)
      | isFalse h => isFalse (fun he => h (PyVal.vTuple.inj he))

/-- Decidable equality of lists of dynamic values. -/
def pyValListDecEq : (xs ys : List PyVal) → Decidable (xs = ys)
  | [], [] => isTrue rfl
  | [], _ :: _ => isFalse (fun h => List.noConfusion h)
  | _ :: _, [] => isFalse (fun h => List.noConfusion h)
  | x :: xs, y :: ys =>
      match pyValDecEq x y, pyValListDecEq xs ys with
      | isTrue h1, isTrue h2 => isTrue (by rw [h1, h2])
      | isFalse h1, _ => isFalse (fun he => h1 (List.cons.inj he).1)
      | isTrue _, isFalse h2 => isFalse (fun he => h2 (List.cons.inj he).2)
end

instance : DecidableEq PyVal := pyValDecEq

/-- Python truthiness: `None`, `0`, `""` and empty containers are falsy. -/
def pyTruthy : PyVal → Bool
  | .vNone => false
  | .vInt n => n != 0
  | .vStr s => s != ""
  | .vList xs => !xs.isEmpty
  | .vTuple xs => !xs.isEmpty

/-- Python `a or b`: `a` when `a` is truthy, else `b`. -/
def pyOr (a b : PyVal) : PyVal :=
  if pyTruthy a then a else b

/-- The single-quote character used by Python `repr` of strings. -/
def pyQuote : String := String.singleton (Char.ofNat 39)

mutual
/-- Model of Python `str(v)`: a `str` prints as itself, every other value
prints as its `repr`. -/
def pyStr : PyVal → String
  | .vStr s => s
  | v => pyRepr v

/-- Model of Python `repr(v)` (containers print their elements' reprs). -/
def pyRepr : PyVal → String
  | .vNone => "None"
  | .vInt n => toString n
  | .vStr s => pyQuote ++ s ++ pyQuote
  | .vList xs => "[" ++ String.intercalate ", " (pyReprList xs) ++ "]"
  | .vTuple [x] => "(" ++ pyRepr x ++ ",)"
  | .vTuple xs => "(" ++ String.intercalate ", " (pyReprList xs) ++ ")"

/-- `repr` of each element of a list of Python values. -/
def pyReprList : List PyVal → List String
  | [] => []
  | x :: xs => pyRepr x :: pyReprList xs
end

/-- A Python dictionary with string keys, in insertion order. -/
abbrev PyDict := List (String × PyVal)

/-- Python `d.get(k)`: the stored value, or `None` when the key is absent
(an absent key and a key stored as `None` are indistinguishable, as in
Python's `dict.get`). -/
def dictGet (d : PyDict) (k : String) : PyVal :=
  match d.find? (fun kv => kv.1 == k) with
  | some kv => kv.2
  | none => .vNone

/-- The `{"status": ..., "detail": ...}` dictionary produced by the two
status builders (`build_status_from_response` / `build_status_from_error`).
Both fields keep their dynamic Python type. -/
structure StatusInfo where
  status : PyVal
  detail : PyVal
deriving DecidableEq

/-- A LangChain response object as seen by the call nodes:
`response_metadata` (attribute present or not), `content` (present or not),
and its `str(...)` rendering. -/
structure PyResponse where
  response_metadata : Option PyDict
  content : Option String
  asStr : String
deriving DecidableEq

/-- An exception object as seen by `build_status_from_error`: an optional
`status_code` attribute, an optional `response` attribute (itself carrying
an optional `status_code`), and the `str(...)` of the exception. -/
structure PyError where
  status_code : Option Int
  response_status_code : Option (Option Int)
  msg : String
deriving DecidableEq

/-- `build_status_from_response(response, default_status=200,
detail="success")` from `app/services/langgraph.py` lines 65-81:
`metadata = getattr(response, "response_metadata", None) or {}`, then the
`or`-chains over `status_code`/`status`/`http_status` and
`finish_reason`/`reason`, then `{"status": status or default_status,
"detail": detail_text}`. -/
def build_status_from_response (response : PyResponse) : StatusInfo :=
  let metadata : PyDict :=
    match response.response_metadata with
    | some d => if d.isEmpty then [] else d
    | none => []
  let status :=
    pyOr (dictGet metadata "status_code")
      (pyOr (dictGet metadata "status") (dictGet metadata "http_status"))
  let detail_text :=
    pyOr (dictGet metadata "finish_reason")
      (pyOr (dictGet metadata "reason") (.vStr "success"))
  { status := pyOr status (.vInt 200), detail := detail_text }

/-- `build_status_from_error(error)` from `app/services/langgraph.py`
lines 84-98: `status = getattr(error, "status_code", None)`; if that is
`None`, fall back to `getattr(error.response, "status_code", None)` when a
`response` attribute exists; result `{"status": status or "error",
"detail": str(error)}` (so a present-but-zero code is falsy and yields the
`"error"` marker). -/
def build_status_from_error (error : PyError) : StatusInfo :=
  let status : Option Int :=
    match error.status_code with
    | some n => some n
    | none =>
        match error.response_status_code with
        | some rc => rc
        | none => none
  { status :=
      match status with
      | some n => if n = 0 then .vStr "error" else .vInt n
      | none => .vStr "error",
    detail := .vStr error.msg }

/-- `format_response_message(label, payload)` from
`app/services/langgraph.py` lines 101-111: the tuple
`("assistant", f"[\x7blabel\x7d] \x7bpayload\x7d")`. -/
def format_response_message (label : String) (payload : String) : PyVal :=
  .vTuple [.vStr "assistant", .vStr ("[" ++ label ++ "] " ++ payload)]

/-- A normalized chat message dictionary `{"role": ..., "content": ...}`. -/
structure ChatMsg where
  role : String
  content : String
deriving DecidableEq

/-- The (role, content) identity key of a message. -/
def msgKey (m : ChatMsg) : String × String := (m.role, m.content)

/-- `_normalize_messages(messages)` from `app/services/langgraph.py` lines
374-390: a 2-element list or tuple becomes `{"role": str(role), "content":
str(content)}`; anything else becomes `{"role": "system", "content":
str(message)}`. -/
def normalizeMessages (messages : List PyVal) : List ChatMsg :=
  messages.map fun message =>
    match message with
    | .vList [role, content] => ⟨pyStr role, pyStr content⟩
    | .vTuple [role, content] => ⟨pyStr role, pyStr content⟩
    | other => ⟨"system", pyStr other⟩

/-- Whether a value passes `isinstance(message, (list, tuple)) and
len(message) == 2`. -/
def isPair2 : PyVal → Bool
  | .vList [_, _] => true
  | .vTuple [_, _] => true
  | _ => false

/-- Python `str.strip()`: drop leading and trailing whitespace. -/
def pyStrip (s : String) : String :=
  ⟨((s.data.dropWhile Char.isWhitespace).reverse.dropWhile
      Char.isWhitespace).reverse⟩

/-- The `GraphState` `TypedDict` of `app/services/langgraph.py` lines
44-62 (`total=False`: every key optional; absent keys modelled as `none`,
an absent `messages` as `[]`).  The `tavily_search` key is declared in the
source but never written or read by the streaming engine, so it is kept
here for completeness. -/
structure GraphState where
  question : Option String
  openai_answer : Option String
  gemini_answer : Option String
  anthropic_answer : Option String
  upstage_answer : Option String
  perplexity_answer : Option String
  tavily_search : Option String
  openai_status : Option StatusInfo
  gemini_status : Option StatusInfo
  anthropic_status : Option StatusInfo
  upstage_status : Option StatusInfo
  perplexity_status : Option StatusInfo
  messages : List PyVal
deriving DecidableEq

/-- A `GraphState` with every key absent (the empty state delta). -/
def emptyState : GraphState :=
  ⟨none, none, none, none, none, none, none, none, none, none, none, none, []⟩

/-- The outcome of the underlying `_ainvoke(llm, question)` call: either a
response object or a raised exception.  This is the input that the network
supplies to one provider-call node. -/
inductive InvokeResult where
  | ok (response : PyResponse)
  | err (error : PyError)
deriving DecidableEq

/-- `response.content if hasattr(response, "content") else str(response)`
(lines 160 etc. of `app/services/langgraph.py`). -/
def contentOf (response : PyResponse) : String :=
  match response.content with
  | some c => c
  | none => response.asStr

/-- `call_openai(state)` from `app/services/langgraph.py` lines 146-174,
with the network outcome of `_ainvoke` made explicit.  On success it
returns the answer/status/message delta; on any exception it catches the
exception and returns a status/message delta with no answer.  The other
four call nodes (`call_gemini`, `call_anthropic`, `call_upstage`,
`call_perplexity`) are line-for-line identical up to the provider label and
state keys. -/
def call_openai (question : String) (invoked : InvokeResult) : GraphState :=
  match invoked with
  | .ok response =>
      { emptyState with
        openai_answer := some (contentOf response),
        openai_status := some (build_status_from_response response),
        messages := [format_response_message "OpenAI" response.asStr] }
  | .err exc =>
      { emptyState with
        openai_status := some (build_status_from_error exc),
        messages := [format_response_message "OpenAI 오류" exc.msg] }

/-- One entry of `NODE_CONFIG`: display label and the two state keys. -/
structure NodeMeta where
  label : String
  answer_key : String
  status_key : String
deriving DecidableEq

/-- `NODE_CONFIG` from `app/services/langgraph.py` lines 310-316: the five
provider nodes, keyed by node name, in source order. -/
def NODE_CONFIG : List (String × NodeMeta) :=
  [("call_openai", ⟨"OpenAI", "openai_answer", "openai_status"⟩),
   ("call_gemini", ⟨"Gemini", "gemini_answer", "gemini_status"⟩),
   ("call_anthropic", ⟨"Anthropic", "anthropic_answer", "anthropic_status"⟩),
   ("call_perplexity", ⟨"Perplexity", "perplexity_answer", "perplexity_status"⟩),
   ("call_upstage", ⟨"Upstage", "upstage_answer", "upstage_status"⟩)]

/-- The node names configured in `NODE_CONFIG` (the adapter set). -/
def configNames : List String := NODE_CONFIG.map Prod.fst

/-- The provider labels configured in `NODE_CONFIG` (provider identities). -/
def configLabels : List String := NODE_CONFIG.map (fun kv => kv.2.label)

/-- `state.get(meta["answer_key"])`: string-keyed access to the answer
fields of `GraphState`. -/
def stateGetAnswer (state : GraphState) (key : String) : Option String :=
  if key = "openai_answer" then state.openai_answer
  else if key = "gemini_answer" then state.gemini_answer
  else if key = "anthropic_answer" then state.anthropic_answer
  else if key = "upstage_answer" then state.upstage_answer
  else if key = "perplexity_answer" then state.perplexity_answer
  else none

/-- `state.get(meta["status_key"])`: string-keyed access to the status
fields of `GraphState`.  A `none` result also stands for the empty dict
that `or {}` substitutes on line 444 (both are falsy where tested). -/
def stateGetStatus (state : GraphState) (key : String) : Option StatusInfo :=
  if key = "openai_status" then state.openai_status
  else if key = "gemini_status" then state.gemini_status
  else if key = "anthropic_status" then state.anthropic_status
  else if key = "upstage_status" then state.upstage_status
  else if key = "perplexity_status" then state.perplexity_status
  else none

/-- A `type=partial` or `type=error` Stream Event as yielded by
`stream_graph` (`app/services/langgraph.py` lines 440-447 and 450-455).
`nodeEv` is the `partial` event (`model`/`node`/`answer`/`status`/
`messages`); `errEv` is the `error` event (`message`, with `node` and
`model` set to `None` in the source dict). -/
inductive StreamEvent where
  | nodeEv (model : String) (node : String) (answer : Option String)
      (status : Option StatusInfo) (messages : List ChatMsg)
  | errEv (message : String)
deriving DecidableEq

/-- Lines 435-447 of `app/services/langgraph.py`: one `astream` item
`(node_name, state)` is skipped when `node_name not in NODE_CONFIG`,
otherwise turned into the `partial` event for that node. -/
def nodeEventOf (ev : String × GraphState) : Option StreamEvent :=
  match NODE_CONFIG.find? (fun kv => kv.1 == ev.1) with
  | none => none
  | some kv =>
      some (.nodeEv kv.2.label ev.1 (stateGetAnswer ev.2 kv.2.answer_key)
        (stateGetStatus ev.2 kv.2.status_key)
        (normalizeMessages ev.2.messages))

/-- How one round's `app.astream(...)` loop goes, as seen by
`stream_graph`: it either completes, yielding the listed `(node, state)`
items; or an orchestration fault interrupts it after a prefix of items
(caught on lines 448-455 and turned into an `error` event); or
`stream_graph` itself raises before the loop starts (e.g. `get_app()` on
line 429 fails), which propagates to the caller. -/
inductive RoundTrace where
  | completes (evs : List (String × GraphState))
  | faults (evs : List (String × GraphState)) (message : String)
  | abortsEarly (message : String)
deriving DecidableEq

/-- `stream_graph(question)` from `app/services/langgraph.py` lines
413-456, as the sequence of Stream Events it yields for a given round
trace.  `Except.error` models an exception raised out of the generator
(the empty-question `ValueError` of lines 425-426, or a pre-loop fault);
`Except.ok` is the yielded event sequence, in which an in-loop fault
appends exactly one `error` event after the partial events of the prefix
(lines 448-455) and ends the stream. -/
def stream_graph (question : String) (trace : RoundTrace) :
    Except String (List StreamEvent) :=
  if question = "" ∨ pyStrip question = "" then
    .error "질문을 입력해주세요."
  else
    match trace with
    | .abortsEarly msg => .error msg
    | .completes evs => .ok (evs.filterMap nodeEventOf)
    | .faults evs msg => .ok (evs.filterMap nodeEventOf ++ [.errEv msg])

/-- Python dict assignment `d[k] = v`: overwrite in place when the key
exists, else append at the end (insertion order preserved). -/
def dictUpsert {α : Type} (d : List (String × α)) (k : String) (v : α) :
    List (String × α) :=
  if d.any (fun kv => kv.1 == k) then
    d.map (fun kv => if kv.1 == k then (k, v) else kv)
  else d ++ [(k, v)]

/-- Lookup in an insertion-ordered dict. -/
def dictLookup {α : Type} (d : List (String × α)) (k : String) : Option α :=
  (d.find? (fun kv => kv.1 == k)).map (fun kv => kv.2)

/-- One iteration of the `extend_messages` loop body
(`app/api/routes.py` lines 55-62): skip a message whose key is already in
`seen`, else record the key and append the message. -/
def extendOne (st : List ChatMsg × List (String × String)) (message : ChatMsg) :
    List ChatMsg × List (String × String) :=
  let key := (message.role, message.content)
  if key ∈ st.2 then st
  else (st.1 ++ [⟨message.role, message.content⟩], st.2 ++ [key])

/-- The nested `extend_messages(new_messages)` closure of
`app/api/routes.py` lines 54-62 (the same loop as
`_extend_unique_messages` in `app/services/langgraph.py` lines 393-410):
append each message whose `(role, content)` key is not yet in `seen`,
recording the key. -/
def extend_messages (acc : List ChatMsg × List (String × String))
    (new_messages : List ChatMsg) : List ChatMsg × List (String × String) :=
  new_messages.foldl extendOne acc

/-- The mutable aggregation state of `response_stream`
(`app/api/routes.py` lines 49-52): `answers`, `api_status`, `messages` and
the dedup set `seen_messages`. -/
structure AggState where
  answers : List (String × Option String)
  api_status : List (String × StatusInfo)
  messages : List ChatMsg
  seen : List (String × String)
deriving DecidableEq

/-- The initial aggregation state (`app/api/routes.py` lines 49-52): the
single user message holding the (already stripped) question, with its key
seeded into the dedup set. -/
def initAcc (question : String) : AggState :=
  { answers := [], api_status := [],
    messages := [⟨"user", question⟩],
    seen := [("user", question)] }

/-- The `messages` list carried by an event
(`event.get("messages")`; the service's `error` event has no such key, so
it contributes the empty list). -/
def eventMessages : StreamEvent → List ChatMsg
  | .nodeEv _ _ _ _ msgs => msgs
  | .errEv _ => []

/-- One iteration of the `for event in stream_graph(question)` loop of
`app/api/routes.py` lines 65-72: when the event's `model` is truthy,
record `answers[model] = event.get("answer")` and, when the `status` dict
is truthy, `api_status[model] = status`; then merge the event's messages
through `extend_messages`.  The `error` event carries `model = None`, so
it only reaches the (empty) message merge. -/
def foldEvent (acc : AggState) (event : StreamEvent) : AggState :=
  let acc1 :=
    match event with
    | .nodeEv model _ answer status _ =>
        if model = "" then acc
        else
          let withAnswer :=
            { acc with answers := dictUpsert acc.answers model answer }
          match status with
          | some s =>
              { withAnswer with
                api_status := dictUpsert withAnswer.api_status model s }
          | none => withAnswer
    | .errEv _ => acc
  let merged := extend_messages (acc1.messages, acc1.seen) (eventMessages event)
  { acc1 with messages := merged.1, seen := merged.2 }

/-- The `result` object of the `summary` event (`app/api/routes.py` lines
75-83): exactly the keys `question`, `answers`, `api_status`, `messages`,
in source order. -/
structure ResultObj where
  question : String
  answers : List (String × Option String)
  api_status : List (String × StatusInfo)
  messages : List ChatMsg
deriving DecidableEq

/-- One newline-delimited JSON line of the endpoint's streamed response:
a serialized service event (`json.dumps(event)`, line 73), the route's own
error event (line 87), or the summary (line 84). -/
inductive OutLine where
  | evLine (event : StreamEvent)
  | routeErrLine (message : String)
  | summaryLine (result : ResultObj)
deriving DecidableEq

/-- `response_stream()` from `app/api/routes.py` lines 48-87, as the list
of lines it yields for a given round trace.  When `stream_graph` raises
(it can only do so before yielding anything), the `except` handler yields
exactly one error line; otherwise every event is folded into the
aggregation state and yielded, and one summary line built from the final
state follows. -/
def response_stream (question : String) (trace : RoundTrace) : List OutLine :=
  match stream_graph question trace with
  | .error msg => [.routeErrLine msg]
  | .ok events =>
      let final := events.foldl foldEvent (initAcc question)
      events.map .evLine ++
        [.summaryLine
          ⟨question, final.answers, final.api_status, final.messages⟩]

/-- The HTTP-level rejection of `ask_question` (`HTTPException`,
`app/api/routes.py` line 46): status code and `detail` body. -/
structure HttpError where
  status_code : Int
  detail : String
deriving DecidableEq

/-- `ask_question(payload)` from `app/api/routes.py` lines 33-89: strip
the question; reject with HTTP 400 before any streaming when the stripped
question is empty; otherwise return the streaming response. -/
def ask_question (payload_question : String) (trace : RoundTrace) :
    Except HttpError (List OutLine) :=
  let question := pyStrip payload_question
  if question = "" then .error ⟨400, "질문을 입력해주세요."⟩
  else .ok (response_stream question trace)

/-- A JSON value, as produced by `json.dumps` of the summary's `result`
dictionary. -/
inductive JVal where
  | jNull
  | jInt (n : Int)
  | jStr (s : String)
  | jArr (xs : List JVal)
  | jObj (fields : List (String × JVal))

/-- JSON form of a dynamic value stored in a status dict. -/
def pyToJ : PyVal → JVal
  | .vNone => .jNull
  | .vInt n => .jInt n
  | .vStr s => .jStr s
  | .vList _ => .jArr []
  | .vTuple _ => .jArr []

/-- JSON form of a status dict: `{"status": ..., "detail": ...}`. -/
def statusToJ (s : StatusInfo) : JVal :=
  .jObj [("status", pyToJ s.status), ("detail", pyToJ s.detail)]

/-- JSON form of a message dict: `{"role": ..., "content": ...}`. -/
def msgToJ (m : ChatMsg) : JVal :=
  .jObj [("role", .jStr m.role), ("content", .jStr m.content)]

/-- `json.dumps` of the summary's `result` dictionary exactly as built on
`app/api/routes.py` lines 77-82: the four keys `question`, `answers`,
`api_status`, `messages`, in that order, and no others. -/
def resultToJ (r : ResultObj) : JVal :=
  .jObj
    [("question", .jStr r.question),
     ("answers", .jObj (r.answers.map (fun kv =>
        (kv.1, match kv.2 with | some a => JVal.jStr a | none => JVal.jNull)))),
     ("api_status", .jObj (r.api_status.map (fun kv => (kv.1, statusToJ kv.2)))),
     ("messages", .jArr (r.messages.map msgToJ))]

/-- The value of a key of a JSON object (`none` when the key is absent or
the value is not an object). -/
def jLookup (j : JVal) (k : String) : Option JVal :=
  match j with
  | .jObj fields => (fields.find? (fun kv => kv.1 == k)).map (fun kv => kv.2)
  | _ => none

/-- The key list of a JSON object. -/
def jTopKeys : JVal → List String
  | .jObj fields => fields.map Prod.fst
  | _ => []

/-- The dedup invariant of the aggregation: `seen` holds exactly the
`(role, content)` keys of the accumulated messages, and those keys are
pairwise distinct. -/
def SeenInv (st : List ChatMsg × List (String × String)) : Prop :=
  (∀ k ∈ st.2, k ∈ st.1.map msgKey) ∧
  (∀ k ∈ st.1.map msgKey, k ∈ st.2) ∧
  (st.1.map msgKey).Nodup

/-- The truthy `model` field of an event (`event.get("model")` followed by
`if model:`), `none` for the `error` event or a falsy label. -/
def eventModel : StreamEvent → Option String
  | .nodeEv model _ _ _ _ => if model = "" then none else some model
  | .errEv _ => none

/-- Whether an event is a `partial` (per-node) event. -/
def isNodeEvB : StreamEvent → Bool
  | .nodeEv _ _ _ _ _ => true
  | .errEv _ => false

/-- Whether an output line is a serialized `partial` event. -/
def lineIsNode : OutLine → Bool
  | .evLine e => isNodeEvB e
  | _ => false

/-- Whether an output line is an `error` event (either the service's or
the route's own). -/
def lineIsError : OutLine → Bool
  | .evLine (.errEv _) => true
  | .routeErrLine _ => true
  | _ => false

/-- Whether an output line is the `summary` event. -/
def lineIsSummary : OutLine → Bool
  | .summaryLine _ => true
  | _ => false

/-- Whether a node name is configured in `NODE_CONFIG`
(`node_name not in NODE_CONFIG` on line 436). -/
def isConfigNode (n : String) : Bool :=
  (NODE_CONFIG.find? (fun kv => kv.1 == n)).isSome

/-- The label of a configured node name (`NODE_CONFIG[node_name]["label"]`);
`""` for unconfigured names. -/
def labelOfName (n : String) : String :=
  match NODE_CONFIG.find? (fun kv => kv.1 == n) with
  | some kv => kv.2.label
  | none => ""

/-- The truthy model label a line reports (`none` for error and summary
lines). -/
def lineModel : OutLine → Option String
  | .evLine e => eventModel e
  | _ => none

/-- A concrete successful provider response used by witnesses: metadata
with a finish reason, content `"pong"`. -/
def okResponse : PyResponse :=
  ⟨some [("finish_reason", .vStr "stop")], some "pong", "AIMessage"⟩

/-- A concrete provider exception with no embedded status code. -/
def errBoom : PyError := ⟨none, none, "boom"⟩

/-- A concrete provider exception carrying a nonzero embedded
`status_code`. -/
def errHttp : PyError := ⟨some 404, none, "not found"⟩

/-- A concrete provider exception whose nonzero status code sits only on
its `response` attribute. -/
def errResp : PyError := ⟨none, some (some 503), "bad gateway"⟩

/-- A concrete complete round trace: the `init_question` item (skipped by
the stream) followed by one item per configured node. -/
def evsRound : List (String × GraphState) :=
  [("init_question", emptyState),
   ("call_openai", call_openai "q" (.ok okResponse)),
   ("call_gemini", emptyState),
   ("call_anthropic", emptyState),
   ("call_perplexity", emptyState),
   ("call_upstage", emptyState)]

/-! ## Lemmas about the dedup merge -/

lemma extend_messages_cons (st : List ChatMsg × List (String × String))
    (m : ChatMsg) (d : List ChatMsg) :
    extend_messages st (m :: d) = extend_messages (extendOne st m) d := rfl

lemma extend_messages_nil (st : List ChatMsg × List (String × String)) :
    extend_messages st [] = st := rfl

lemma extendOne_msgs_append (st : List ChatMsg × List (String × String))
    (m : ChatMsg) : ∃ t, (extendOne st m).1 = st.1 ++ t := by
  by_cases hc : (m.role, m.content) ∈ st.2
  · exact ⟨[], by simp [extendOne, hc]⟩
  · exact ⟨[⟨m.role, m.content⟩], by simp [extendOne, hc]⟩

lemma extend_messages_msgs_append (d : List ChatMsg)
    (st : List ChatMsg × List (String × String)) :
    ∃ t, (extend_messages st d).1 = st.1 ++ t := by
  induction d generalizing st with
  | nil => exact ⟨[], by simp [extend_messages_nil]⟩
  | cons m d ih =>
      rw [extend_messages_cons]
      obtain ⟨t1, h1⟩ := extendOne_msgs_append st m
      obtain ⟨t2, h2⟩ := ih (extendOne st m)
      exact ⟨t1 ++ t2, by rw [h2, h1, List.append_assoc]⟩

lemma extendOne_seen_mono {st : List ChatMsg × List (String × String)}
    {k : String × String} (m : ChatMsg) (h : k ∈ st.2) :
    k ∈ (extendOne st m).2 := by
  by_cases hc : (m.role, m.content) ∈ st.2
  · simpa [extendOne, hc] using h
  · simp only [extendOne, hc, if_false]
    exact List.mem_append.mpr (Or.inl h)

lemma extend_messages_seen_mono {k : String × String} (d : List ChatMsg)
    {st : List ChatMsg × List (String × String)} (h : k ∈ st.2) :
    k ∈ (extend_messages st d).2 := by
  induction d generalizing st with
  | nil => exact h
  | cons m d ih => rw [extend_messages_cons]; exact ih (extendOne_seen_mono m h)

lemma extendOne_key_mem (st : List ChatMsg × List (String × String))
    (m : ChatMsg) : msgKey m ∈ (extendOne st m).2 := by
  by_cases hc : (m.role, m.content) ∈ st.2
  · simp [extendOne, hc, msgKey]
  · simp [extendOne, hc, msgKey]

lemma extend_messages_key_mem {m : ChatMsg} {d : List ChatMsg}
    (hm : m ∈ d) (st : List ChatMsg × List (String × String)) :
    msgKey m ∈ (extend_messages st d).2 := by
  induction d generalizing st with
  | nil => cases hm
  | cons x d ih =>
      rw [extend_messages_cons]
      rcases List.mem_cons.mp hm with h | h
      · subst h; exact extend_messages_seen_mono d (extendOne_key_mem st m)
      · exact ih h (extendOne st x)

lemma extendOne_skip {st : List ChatMsg × List (String × String)}
    {m : ChatMsg} (h : msgKey m ∈ st.2) : extendOne st m = st := by
  unfold extendOne
  simp only [msgKey] at h
  simp [h]

lemma extend_messages_skip {d : List ChatMsg}
    {st : List ChatMsg × List (String × String)}
    (h : ∀ m ∈ d, msgKey m ∈ st.2) : extend_messages st d = st := by
  induction d with
  | nil => rfl
  | cons m d ih =>
      rw [extend_messages_cons, extendOne_skip (h m (List.mem_cons_self m d))]
      exact ih (fun x hx => h x (List.mem_cons_of_mem m hx))

lemma mem_map_msgKey {l : List ChatMsg} {k : String × String} :
    k ∈ l.map msgKey ↔ (⟨k.1, k.2⟩ : ChatMsg) ∈ l := by
  constructor
  · rintro h
    obtain ⟨m, hm, hk⟩ := List.mem_map.mp h
    cases m
    cases hk
    exact hm
  · intro h
    exact List.mem_map.mpr ⟨⟨k.1, k.2⟩, h, rfl⟩

lemma extendOne_SeenInv {st : List ChatMsg × List (String × String)}
    (h : SeenInv st) (m : ChatMsg) : SeenInv (extendOne st m) := by
  obtain ⟨h1, h2, h3⟩ := h
  by_cases hnot : (m.role, m.content) ∈ st.2
  · simpa [extendOne, hnot] using ⟨h1, h2, h3⟩
  · simp only [extendOne, hnot, if_false]
    refine ⟨?_, ?_, ?_⟩
    · intro k hk
      simp only [List.mem_append, List.mem_singleton] at hk
      rcases hk with hk | hk
      · simp only [List.map_append]
        exact List.mem_append.mpr (Or.inl (h1 k hk))
      · subst hk; simp [msgKey]
    · intro k hk
      simp only [List.map_append, List.map_cons, List.map_nil,
        List.mem_append, List.mem_singleton] at hk
      rcases hk with hk | hk
      · exact List.mem_append.mpr (Or.inl (h2 k hk))
      · subst hk; simp [msgKey]
    · simp only [List.map_append, List.map_cons, List.map_nil]
      refine List.Nodup.append h3 (List.nodup_singleton _) ?_
      intro k hk1 hk2
      simp only [List.mem_singleton] at hk2
      subst hk2
      exact hnot (h2 _ hk1)

lemma extend_messages_SeenInv {st : List ChatMsg × List (String × String)}
    (h : SeenInv st) (d : List ChatMsg) : SeenInv (extend_messages st d) := by
  induction d generalizing st with
  | nil => exact h
  | cons m d ih => rw [extend_messages_cons]; exact ih (extendOne_SeenInv h m)

lemma extendOne_msgs_mem {st : List ChatMsg × List (String × String)}
    {m : ChatMsg} (x : ChatMsg) (h : m ∈ st.1) : m ∈ (extendOne st x).1 := by
  obtain ⟨t, ht⟩ := extendOne_msgs_append st x
  rw [ht]
  exact List.mem_append.mpr (Or.inl h)

lemma extend_messages_msgs_mem {st : List ChatMsg × List (String × String)}
    {m : ChatMsg} (d : List ChatMsg) (h : m ∈ st.1) :
    m ∈ (extend_messages st d).1 := by
  obtain ⟨t, ht⟩ := extend_messages_msgs_append d st
  rw [ht]
  exact List.mem_append.mpr (Or.inl h)

lemma extendOne_mem_of_inv {st : List ChatMsg × List (String × String)}
    (h : SeenInv st) (m : ChatMsg) : m ∈ (extendOne st m).1 := by
  by_cases hin : (m.role, m.content) ∈ st.2
  · have hmem := mem_map_msgKey.mp (h.1 _ hin)
    simpa [extendOne, hin] using hmem
  · simp [extendOne, hin]

lemma extend_messages_mem_of_inv {st : List ChatMsg × List (String × String)}
    {m : ChatMsg} {d : List ChatMsg} (h : SeenInv st) (hm : m ∈ d) :
    m ∈ (extend_messages st d).1 := by
  induction d generalizing st with
  | nil => cases hm
  | cons x d ih =>
      rw [extend_messages_cons]
      rcases List.mem_cons.mp hm with hx | hx
      · subst hx
        exact extend_messages_msgs_mem d (extendOne_mem_of_inv h m)
      · exact ih (extendOne_SeenInv h x) hx

lemma SeenInv_msgs_nodup {st : List ChatMsg × List (String × String)}
    (h : SeenInv st) : st.1.Nodup :=
  List.Nodup.of_map msgKey h.2.2

/-- The claim's "exactly once": under the dedup invariant the accumulated
messages are duplicate-free, so any present message has count 1. -/
lemma SeenInv_count_eq_one {st : List ChatMsg × List (String × String)}
    {m : ChatMsg} (h : SeenInv st) (hm : m ∈ st.1) : st.1.count m = 1 :=
  List.count_eq_one_of_mem (SeenInv_msgs_nodup h) hm

/-! ## Lemmas about the aggregation fold -/

lemma foldEvent_messages (acc : AggState) (e : StreamEvent) :
    (foldEvent acc e).messages =
      (extend_messages (acc.messages, acc.seen) (eventMessages e)).1 := by
  cases e with
  | nodeEv model node answer status msgs =>
      by_cases hm : model = "" <;> cases status <;>
        simp [foldEvent, hm, eventMessages]
  | errEv msg => simp [foldEvent, eventMessages]

lemma foldEvent_seen (acc : AggState) (e : StreamEvent) :
    (foldEvent acc e).seen =
      (extend_messages (acc.messages, acc.seen) (eventMessages e)).2 := by
  cases e with
  | nodeEv model node answer status msgs =>
      by_cases hm : model = "" <;> cases status <;>
        simp [foldEvent, hm, eventMessages]
  | errEv msg => simp [foldEvent, eventMessages]

lemma foldEvent_answers_err (acc : AggState) (msg : String) :
    (foldEvent acc (.errEv msg)).answers = acc.answers := rfl

lemma foldEvent_answers_node (acc : AggState) {model : String}
    (hm : model ≠ "") (node : String) (answer : Option String)
    (status : Option StatusInfo) (msgs : List ChatMsg) :
    (foldEvent acc (.nodeEv model node answer status msgs)).answers =
      dictUpsert acc.answers model answer := by
  cases status <;> simp [foldEvent, hm]

lemma foldEvent_answers_eventModel (acc : AggState) (e : StreamEvent) :
    (foldEvent acc e).answers =
      match eventModel e, e with
      | some m, .nodeEv _ _ answer _ _ => dictUpsert acc.answers m answer
      | _, _ => acc.answers := by
  cases e with
  | nodeEv model node answer status msgs =>
      by_cases hm : model = "" <;> cases status <;>
        simp [foldEvent, eventModel, hm]
  | errEv msg => simp [foldEvent, eventModel]

lemma foldEvent_api_status_err (acc : AggState) (msg : String) :
    (foldEvent acc (.errEv msg)).api_status = acc.api_status := rfl

lemma foldEvent_api_status_none (acc : AggState) (model node : String)
    (answer : Option String) (msgs : List ChatMsg) :
    (foldEvent acc (.nodeEv model node answer none msgs)).api_status =
      acc.api_status := by
  by_cases hm : model = "" <;> simp [foldEvent, hm]

lemma foldEvent_api_status_some (acc : AggState) {model : String}
    (hm : model ≠ "") (node : String) (answer : Option String)
    (s : StatusInfo) (msgs : List ChatMsg) :
    (foldEvent acc (.nodeEv model node answer (some s) msgs)).api_status =
      dictUpsert acc.api_status model s := by
  simp [foldEvent, hm]

lemma fold_SeenInv {acc : AggState}
    (h : SeenInv (acc.messages, acc.seen)) (events : List StreamEvent) :
    SeenInv ((events.foldl foldEvent acc).messages,
      (events.foldl foldEvent acc).seen) := by
  induction events generalizing acc with
  | nil => exact h
  | cons e events ih =>
      rw [List.foldl_cons]
      apply ih
      rw [foldEvent_messages, foldEvent_seen]
      exact extend_messages_SeenInv h (eventMessages e)

lemma fold_messages_append (events : List StreamEvent) (acc : AggState) :
    ∃ t, (events.foldl foldEvent acc).messages = acc.messages ++ t := by
  induction events generalizing acc with
  | nil => exact ⟨[], by simp⟩
  | cons e events ih =>
      rw [List.foldl_cons]
      obtain ⟨t2, h2⟩ := ih (foldEvent acc e)
      obtain ⟨t1, h1⟩ :=
        extend_messages_msgs_append (eventMessages e) (acc.messages, acc.seen)
      refine ⟨t1 ++ t2, ?_⟩
      rw [h2, foldEvent_messages, h1, List.append_assoc]

/-! ## Lemmas about dict assignment -/

lemma findEntry_cons_true {α : Type} {x : String × α} {k : String}
    (d : List (String × α)) (h : (x.1 == k) = true) :
    List.find? (fun kv => kv.1 == k) (x :: d) = some x :=
  List.find?_cons_of_pos d h

lemma findEntry_cons_false {α : Type} {x : String × α} {k : String}
    (d : List (String × α)) (h : (x.1 == k) = false) :
    List.find? (fun kv => kv.1 == k) (x :: d) =
      List.find? (fun kv => kv.1 == k) d :=
  List.find?_cons_of_neg d (by simp [h])

lemma find_map_upsert {α : Type} (d : List (String × α)) {k k2 : String}
    (hne : k2 ≠ k) (v : α) :
    (d.map (fun kv => if kv.1 == k then (k, v) else kv)).find?
        (fun kv => kv.1 == k2) =
      d.find? (fun kv => kv.1 == k2) := by
  induction d with
  | nil => rfl
  | cons x d ih =>
      simp only [List.map_cons]
      by_cases hxk : (x.1 == k) = true
      · rw [if_pos hxk]
        have h1 : (((k, v) : String × α).1 == k2) = false := by
          simp only [beq_eq_false_iff_ne, ne_eq]
          exact fun he => hne he.symm
        have h2 : (x.1 == k2) = false := by
          simp only [beq_eq_false_iff_ne, ne_eq]
          rw [beq_iff_eq] at hxk
          exact fun he => hne (by rw [← he, hxk])
        rw [findEntry_cons_false _ h1, findEntry_cons_false _ h2]
        exact ih
      · rw [if_neg hxk]
        by_cases hx2 : (x.1 == k2) = true
        · rw [findEntry_cons_true _ hx2, findEntry_cons_true _ hx2]
        · have hx2f : (x.1 == k2) = false := Bool.eq_false_iff.mpr hx2
          rw [findEntry_cons_false _ hx2f, findEntry_cons_false _ hx2f]
          exact ih

lemma find_append_single {α : Type} (d : List (String × α)) {k k2 : String}
    (hne : k2 ≠ k) (v : α) :
    (d ++ [(k, v)]).find? (fun kv => kv.1 == k2) =
      d.find? (fun kv => kv.1 == k2) := by
  induction d with
  | nil =>
      rw [List.nil_append]
      apply List.find?_eq_none.mpr
      intro kv hkv
      simp only [List.mem_singleton] at hkv
      subst hkv
      simp only [beq_iff_eq]
      exact fun he => hne he.symm
  | cons x d ih =>
      rw [List.cons_append]
      by_cases hx2 : (x.1 == k2) = true
      · rw [findEntry_cons_true _ hx2, findEntry_cons_true _ hx2]
      · have hx2f : (x.1 == k2) = false := Bool.eq_false_iff.mpr hx2
        rw [findEntry_cons_false _ hx2f, findEntry_cons_false _ hx2f]
        exact ih

lemma find_map_upsert_self {α : Type} {d : List (String × α)} {k : String}
    (v : α) (h : ∃ kv ∈ d, (kv.1 == k) = true) :
    (d.map (fun kv => if kv.1 == k then (k, v) else kv)).find?
        (fun kv => kv.1 == k) = some (k, v) := by
  induction d with
  | nil => obtain ⟨kv, hkv, _⟩ := h; cases hkv
  | cons x d ih =>
      simp only [List.map_cons]
      by_cases hxk : (x.1 == k) = true
      · rw [if_pos hxk]
        exact findEntry_cons_true _ (by simp)
      · have hxkf : (x.1 == k) = false := Bool.eq_false_iff.mpr hxk
        rw [if_neg hxk, findEntry_cons_false _ hxkf]
        apply ih
        obtain ⟨kv, hkv, hb⟩ := h
        rcases List.mem_cons.mp hkv with he | he
        · subst he; rw [hxkf] at hb; cases hb
        · exact ⟨kv, he, hb⟩

lemma find_append_single_self {α : Type} {d : List (String × α)} {k : String}
    (v : α) (hall : ∀ kv ∈ d, (kv.1 == k) = false) :
    (d ++ [(k, v)]).find? (fun kv => kv.1 == k) = some (k, v) := by
  induction d with
  | nil =>
      rw [List.nil_append]
      exact findEntry_cons_true _ (by simp)
  | cons x d ih =>
      rw [List.cons_append,
        findEntry_cons_false _ (hall x (List.mem_cons_self x d))]
      exact ih (fun kv hkv => hall kv (List.mem_cons_of_mem x hkv))

lemma dictLookup_dictUpsert_self {α : Type} (d : List (String × α))
    (k : String) (v : α) : dictLookup (dictUpsert d k v) k = some v := by
  unfold dictUpsert dictLookup
  by_cases hany : (d.any (fun kv => kv.1 == k)) = true
  · rw [if_pos hany, find_map_upsert_self v (List.any_eq_true.mp hany)]
    rfl
  · rw [if_neg hany]
    have hfalse : d.any (fun kv => kv.1 == k) = false :=
      Bool.eq_false_iff.mpr hany
    rw [find_append_single_self v
      (fun kv hkv => by
        have hn := List.any_eq_false.mp hfalse kv hkv
        simpa using hn)]
    rfl

lemma dictLookup_dictUpsert_other {α : Type} (d : List (String × α))
    {k k2 : String} (hne : k2 ≠ k) (v : α) :
    dictLookup (dictUpsert d k v) k2 = dictLookup d k2 := by
  unfold dictUpsert dictLookup
  by_cases hany : (d.any (fun kv => kv.1 == k)) = true
  · rw [if_pos hany, find_map_upsert d hne v]
  · rw [if_neg hany, find_append_single d hne v]

lemma dictUpsert_keys_not_mem {α : Type} {d : List (String × α)} {k : String}
    (h : k ∉ d.map Prod.fst) (v : α) :
    (dictUpsert d k v).map Prod.fst = d.map Prod.fst ++ [k] := by
  have hany : d.any (fun kv => kv.1 == k) = false := by
    rw [List.any_eq_false]
    intro kv hkv
    simp only [beq_iff_eq]
    intro he
    exact h (he ▸ List.mem_map_of_mem Prod.fst hkv)
  simp [dictUpsert, hany]

lemma dictUpsert_keys_mem {α : Type} {d : List (String × α)} (k : String)
    (v : α) {x : String} (hx : x ∈ (dictUpsert d k v).map Prod.fst) :
    x ∈ d.map Prod.fst ∨ x = k := by
  unfold dictUpsert at hx
  by_cases hany : (d.any (fun kv => kv.1 == k)) = true
  · rw [if_pos hany] at hx
    obtain ⟨kv, hkv, hfst⟩ := List.mem_map.mp hx
    obtain ⟨kv0, hkv0, hmap⟩ := List.mem_map.mp hkv
    by_cases he : (kv0.1 == k) = true
    · rw [if_pos he] at hmap
      right; rw [← hfst, ← hmap]
    · rw [if_neg he] at hmap
      left; rw [← hfst, ← hmap]
      exact List.mem_map_of_mem Prod.fst hkv0
  · rw [if_neg hany] at hx
    simp only [List.map_append, List.map_cons, List.map_nil,
      List.mem_append, List.mem_singleton] at hx
    exact hx

/-! ## Lemmas about answers / api_status through the fold -/

lemma fold_answers_keys {events : List StreamEvent} {acc : AggState}
    (hnd : (events.filterMap eventModel).Nodup)
    (hdisj : ∀ m ∈ events.filterMap eventModel, m ∉ acc.answers.map Prod.fst) :
    (events.foldl foldEvent acc).answers.map Prod.fst =
      acc.answers.map Prod.fst ++ events.filterMap eventModel := by
  induction events generalizing acc with
  | nil => simp
  | cons e events ih =>
      rw [List.foldl_cons]
      cases e with
      | errEv msg =>
          have hmodels : (StreamEvent.errEv msg :: events).filterMap eventModel
              = events.filterMap eventModel := by
            simp [List.filterMap_cons, eventModel]
          rw [hmodels] at hnd hdisj ⊢
          have : (foldEvent acc (.errEv msg)).answers = acc.answers :=
            foldEvent_answers_err acc msg
          rw [ih hnd (by rw [this]; exact hdisj), this]
      | nodeEv model node answer status msgs =>
          by_cases hm : model = ""
          · have hmodels :
                (StreamEvent.nodeEv model node answer status msgs :: events).filterMap
                  eventModel = events.filterMap eventModel := by
              simp [List.filterMap_cons, eventModel, hm]
            rw [hmodels] at hnd hdisj ⊢
            have hsame : (foldEvent acc (.nodeEv model node answer status msgs)).answers
                = acc.answers := by
              subst hm
              cases status <;> simp [foldEvent]
            rw [ih hnd (by rw [hsame]; exact hdisj), hsame]
          · have hmodels :
                (StreamEvent.nodeEv model node answer status msgs :: events).filterMap
                  eventModel = model :: events.filterMap eventModel := by
              simp [List.filterMap_cons, eventModel, hm]
            rw [hmodels] at hnd hdisj ⊢
            have hup : (foldEvent acc (.nodeEv model node answer status msgs)).answers
                = dictUpsert acc.answers model answer :=
              foldEvent_answers_node acc hm node answer status msgs
            have hmem : model ∉ acc.answers.map Prod.fst :=
              hdisj model (List.mem_cons_self _ _)
            have hkeys : (dictUpsert acc.answers model answer).map Prod.fst =
                acc.answers.map Prod.fst ++ [model] :=
              dictUpsert_keys_not_mem hmem answer
            have hnd2 := (List.nodup_cons.mp hnd).2
            have hnotin := (List.nodup_cons.mp hnd).1
            rw [ih hnd2 (by
              intro m hm2
              rw [hup, hkeys]
              simp only [List.mem_append, List.mem_singleton]
              rintro (hiy | hiy)
              · exact hdisj m (List.mem_cons_of_mem _ hm2) hiy
              · exact hnotin (hiy ▸ hm2)), hup, hkeys]
            simp

lemma fold_api_keys_mem {events : List StreamEvent} {acc : AggState}
    {x : String} (hx : x ∈ (events.foldl foldEvent acc).api_status.map Prod.fst) :
    x ∈ acc.api_status.map Prod.fst ∨ x ∈ events.filterMap eventModel := by
  induction events generalizing acc with
  | nil => exact Or.inl hx
  | cons e events ih =>
      rw [List.foldl_cons] at hx
      rcases ih hx with hin | hin
      · cases e with
        | errEv msg =>
            rw [foldEvent_api_status_err] at hin
            exact Or.inl hin
        | nodeEv model node answer status msgs =>
            by_cases hm : model = ""
            · subst hm
              have : (foldEvent acc (.nodeEv "" node answer status msgs)).api_status
                  = acc.api_status := by
                cases status <;> simp [foldEvent]
              rw [this] at hin
              exact Or.inl hin
            · cases status with
              | none =>
                  rw [foldEvent_api_status_none] at hin
                  exact Or.inl hin
              | some s =>
                  rw [foldEvent_api_status_some acc hm] at hin
                  rcases dictUpsert_keys_mem model s hin with hold | heq
                  · exact Or.inl hold
                  · right
                    subst heq
                    simp [List.filterMap_cons, eventModel, hm]
      · right
        obtain ⟨a, ha, he⟩ := List.mem_filterMap.mp hin
        exact List.mem_filterMap.mpr ⟨a, List.mem_cons_of_mem _ ha, he⟩

/-! ## Lemmas about the service event stream -/

lemma config_labels_ne_empty : ∀ kv ∈ NODE_CONFIG, kv.2.label ≠ "" := by decide

lemma nodeEventOf_eq_some {n : String} {st : GraphState} {kv : String × NodeMeta}
    (h : NODE_CONFIG.find? (fun p => p.1 == n) = some kv) :
    nodeEventOf (n, st) = some (.nodeEv kv.2.label n
      (stateGetAnswer st kv.2.answer_key) (stateGetStatus st kv.2.status_key)
      (normalizeMessages st.messages)) := by
  simp [nodeEventOf, h]

lemma nodeEventOf_eq_none {n : String} {st : GraphState}
    (h : NODE_CONFIG.find? (fun p => p.1 == n) = none) :
    nodeEventOf (n, st) = none := by
  simp [nodeEventOf, h]

lemma nodeEvents_models (evs : List (String × GraphState)) :
    (evs.filterMap nodeEventOf).filterMap eventModel =
      ((evs.map Prod.fst).filter isConfigNode).map labelOfName := by
  induction evs with
  | nil => rfl
  | cons ev evs ih =>
      obtain ⟨n, st⟩ := ev
      cases hfind : NODE_CONFIG.find? (fun p => p.1 == n) with
      | none =>
          rw [List.filterMap_cons, nodeEventOf_eq_none hfind]
          have hcfg : isConfigNode n = false := by
            simp [isConfigNode, hfind]
          simp only [List.map_cons, List.filter_cons, hcfg, Bool.false_eq_true,
            if_false]
          exact ih
      | some kv =>
          rw [List.filterMap_cons, nodeEventOf_eq_some hfind]
          have hlabel : kv.2.label ≠ "" :=
            config_labels_ne_empty kv (List.mem_of_find?_eq_some hfind)
          have hcfg : isConfigNode n = true := by
            simp [isConfigNode, hfind]
          have hname : labelOfName n = kv.2.label := by
            simp [labelOfName, hfind]
          simp only [List.filterMap_cons, eventModel, hlabel, if_neg hlabel,
            if_false, List.map_cons, List.filter_cons, hcfg, if_true, hname]
          rw [ih]

lemma nodeEvents_all_node (evs : List (String × GraphState)) :
    ∀ e ∈ evs.filterMap nodeEventOf, isNodeEvB e = true := by
  intro e he
  obtain ⟨ev, _, hev⟩ := List.mem_filterMap.mp he
  obtain ⟨n, st⟩ := ev
  cases hfind : NODE_CONFIG.find? (fun p => p.1 == n) with
  | none => rw [nodeEventOf_eq_none hfind] at hev; cases hev
  | some kv =>
      rw [nodeEventOf_eq_some hfind] at hev
      cases hev
      rfl

lemma fold_answers_lookup_frozen {events : List StreamEvent} {acc : AggState}
    {M : String} (h : ∀ e ∈ events, eventModel e ≠ some M) :
    dictLookup (events.foldl foldEvent acc).answers M =
      dictLookup acc.answers M := by
  induction events generalizing acc with
  | nil => rfl
  | cons e events ih =>
      rw [List.foldl_cons,
        ih (fun e2 he2 => h e2 (List.mem_cons_of_mem _ he2))]
      cases e with
      | errEv msg => rw [foldEvent_answers_err]
      | nodeEv model node answer status msgs =>
          by_cases hm : model = ""
          · subst hm
            have : (foldEvent acc (.nodeEv "" node answer status msgs)).answers
                = acc.answers := by
              cases status <;> simp [foldEvent]
            rw [this]
          · rw [foldEvent_answers_node acc hm]
            have hne : M ≠ model := by
              intro he
              exact h _ (List.mem_cons_self _ _)
                (by simp [eventModel, hm, he])
            rw [dictLookup_dictUpsert_other _ hne]

lemma fold_api_lookup_frozen {events : List StreamEvent} {acc : AggState}
    {M : String} (h : ∀ e ∈ events, eventModel e ≠ some M) :
    dictLookup (events.foldl foldEvent acc).api_status M =
      dictLookup acc.api_status M := by
  induction events generalizing acc with
  | nil => rfl
  | cons e events ih =>
      rw [List.foldl_cons,
        ih (fun e2 he2 => h e2 (List.mem_cons_of_mem _ he2))]
      cases e with
      | errEv msg => rw [foldEvent_api_status_err]
      | nodeEv model node answer status msgs =>
          by_cases hm : model = ""
          · subst hm
            have : (foldEvent acc (.nodeEv "" node answer status msgs)).api_status
                = acc.api_status := by
              cases status <;> simp [foldEvent]
            rw [this]
          · cases status with
            | none => rw [foldEvent_api_status_none]
            | some s =>
                rw [foldEvent_api_status_some acc hm]
                have hne : M ≠ model := by
                  intro he
                  exact h _ (List.mem_cons_self _ _)
                    (by simp [eventModel, hm, he])
                rw [dictLookup_dictUpsert_other _ hne]

lemma openai_label_unique :
    ∀ kv ∈ NODE_CONFIG, kv.2.label = "OpenAI" → kv.1 = "call_openai" := by
  decide

lemma filterMap_eventModel_of_no_openai {pre : List (String × GraphState)}
    (h : "call_openai" ∉ pre.map Prod.fst) :
    ∀ e ∈ pre.filterMap nodeEventOf, eventModel e ≠ some "OpenAI" := by
  intro e he
  obtain ⟨ev, hmem, hev⟩ := List.mem_filterMap.mp he
  obtain ⟨n, st⟩ := ev
  cases hfind : NODE_CONFIG.find? (fun p => p.1 == n) with
  | none => rw [nodeEventOf_eq_none hfind] at hev; cases hev
  | some kv =>
      rw [nodeEventOf_eq_some hfind] at hev
      cases hev
      have hlabel := config_labels_ne_empty kv (List.mem_of_find?_eq_some hfind)
      simp only [eventModel, if_neg hlabel, ne_eq, Option.some.injEq]
      intro heq
      have hkv1 : kv.1 = n := by
        have := List.find?_some hfind
        simpa [beq_iff_eq] using this
      have := openai_label_unique kv (List.mem_of_find?_eq_some hfind) heq
      rw [hkv1] at this
      exact h (this ▸ List.mem_map_of_mem Prod.fst hmem)

/-! ## Lemmas about stream_graph and response_stream -/

lemma pyStrip_empty : pyStrip "" = "" := rfl

lemma stream_graph_guard {q : String} (hq : pyStrip q ≠ "") :
    ¬ (q = "" ∨ pyStrip q = "") := by
  rintro (h | h)
  · exact hq (by rw [h]; exact pyStrip_empty)
  · exact hq h

lemma stream_graph_completes {q : String} (hq : pyStrip q ≠ "")
    (evs : List (String × GraphState)) :
    stream_graph q (.completes evs) = .ok (evs.filterMap nodeEventOf) := by
  unfold stream_graph
  rw [if_neg (stream_graph_guard hq)]

lemma stream_graph_faults {q : String} (hq : pyStrip q ≠ "")
    (evs : List (String × GraphState)) (msg : String) :
    stream_graph q (.faults evs msg) =
      .ok (evs.filterMap nodeEventOf ++ [.errEv msg]) := by
  unfold stream_graph
  rw [if_neg (stream_graph_guard hq)]

lemma stream_graph_aborts {q : String} (hq : pyStrip q ≠ "") (msg : String) :
    stream_graph q (.abortsEarly msg) = .error msg := by
  unfold stream_graph
  rw [if_neg (stream_graph_guard hq)]

lemma response_stream_completes {q : String} (hq : pyStrip q ≠ "")
    (evs : List (String × GraphState)) :
    response_stream q (.completes evs) =
      (evs.filterMap nodeEventOf).map OutLine.evLine ++
        [OutLine.summaryLine
          ⟨q, ((evs.filterMap nodeEventOf).foldl foldEvent (initAcc q)).answers,
            ((evs.filterMap nodeEventOf).foldl foldEvent (initAcc q)).api_status,
            ((evs.filterMap nodeEventOf).foldl foldEvent (initAcc q)).messages⟩] := by
  unfold response_stream
  rw [stream_graph_completes hq]

lemma response_stream_faults {q : String} (hq : pyStrip q ≠ "")
    (evs : List (String × GraphState)) (msg : String) :
    response_stream q (.faults evs msg) =
      (evs.filterMap nodeEventOf).map OutLine.evLine ++
        [OutLine.evLine (StreamEvent.errEv msg),
          OutLine.summaryLine
            ⟨q,
              (((evs.filterMap nodeEventOf) ++ [StreamEvent.errEv msg]).foldl
                foldEvent (initAcc q)).answers,
              (((evs.filterMap nodeEventOf) ++ [StreamEvent.errEv msg]).foldl
                foldEvent (initAcc q)).api_status,
              (((evs.filterMap nodeEventOf) ++ [StreamEvent.errEv msg]).foldl
                foldEvent (initAcc q)).messages⟩] := by
  unfold response_stream
  rw [stream_graph_faults hq]
  simp

lemma response_stream_aborts {q : String} (hq : pyStrip q ≠ "") (msg : String) :
    response_stream q (.abortsEarly msg) = [.routeErrLine msg] := by
  unfold response_stream
  rw [stream_graph_aborts hq]

/-! ## Claim theorems -/

/-- C5: for every request whose question is empty or whitespace-only (its
`strip()` is empty), `ask_question` responds with HTTP 400 and the
`detail` message, never returns a stream (so no Stream Event of any kind
is produced), and never examines the dispatch round (the result is
independent of the round trace, so no dispatch round is started). -/
theorem empty_question_rejected_C5 (payload_question : String)
    (trace : RoundTrace) (h : pyStrip payload_question = "") :
    ask_question payload_question trace =
      .error ⟨400, "질문을 입력해주세요."⟩ ∧
    (∀ lines, ask_question payload_question trace ≠ .ok lines) ∧
    (∀ trace2, ask_question payload_question trace =
      ask_question payload_question trace2) := by
  refine ⟨?_, ?_, ?_⟩
  · simp [ask_question, h]
  · intro lines
    simp [ask_question, h]
  · intro trace2
    simp [ask_question, h]

/-- Witness for C5 at the whitespace-only question `"   "`. -/
theorem empty_question_rejected_C5_witness :
    pyStrip "   " = "" ∧
    ask_question "   " (.completes []) =
      .error ⟨400, "질문을 입력해주세요."⟩ :=
  ⟨rfl, (empty_question_rejected_C5 "   " (.completes []) rfl).1⟩

/-- C9: the accumulated messages of a round start as the single user
message carrying the (stripped) question, its `("user", question)` key is
seeded into the dedup set before any event is folded, and after folding
any sequence of events the messages still begin with that user message and
contain it exactly once. -/
theorem user_message_invariant_C9 (q : String) (events : List StreamEvent) :
    (initAcc q).messages = [⟨"user", q⟩] ∧
    (initAcc q).seen = [("user", q)] ∧
    (events.foldl foldEvent (initAcc q)).messages.head? =
      some ⟨"user", q⟩ ∧
    (events.foldl foldEvent (initAcc q)).messages.count ⟨"user", q⟩ = 1 := by
  have hinv : SeenInv ((initAcc q).messages, (initAcc q).seen) := by
    refine ⟨?_, ?_, ?_⟩ <;> simp [initAcc, msgKey]
  obtain ⟨t, ht⟩ := fold_messages_append events (initAcc q)
  refine ⟨rfl, rfl, ?_, ?_⟩
  · rw [ht]
    simp [initAcc]
  · have hfinal := fold_SeenInv hinv events
    apply SeenInv_count_eq_one hfinal
    rw [ht]
    simp [initAcc]

lemma fold_extend_msgs_append (deltas : List (List ChatMsg))
    (st : List ChatMsg × List (String × String)) :
    ∃ t, (deltas.foldl extend_messages st).1 = st.1 ++ t := by
  induction deltas generalizing st with
  | nil => exact ⟨[], by simp⟩
  | cons d deltas ih =>
      rw [List.foldl_cons]
      obtain ⟨t1, h1⟩ := extend_messages_msgs_append d st
      obtain ⟨t2, h2⟩ := ih (extend_messages st d)
      exact ⟨t1 ++ t2, by rw [h2, h1, List.append_assoc]⟩

lemma fold_extend_SeenInv {st : List ChatMsg × List (String × String)}
    (h : SeenInv st) (deltas : List (List ChatMsg)) :
    SeenInv (deltas.foldl extend_messages st) := by
  induction deltas generalizing st with
  | nil => exact h
  | cons d deltas ih =>
      rw [List.foldl_cons]
      exact ih (extend_messages_SeenInv h d)

lemma fold_extend_mem {st : List ChatMsg × List (String × String)}
    {deltas : List (List ChatMsg)} {m : ChatMsg} (hinv : SeenInv st)
    (hmem : ∃ d ∈ deltas, m ∈ d) :
    m ∈ (deltas.foldl extend_messages st).1 := by
  induction deltas generalizing st with
  | nil => obtain ⟨d, hd, _⟩ := hmem; cases hd
  | cons d deltas ih =>
      rw [List.foldl_cons]
      obtain ⟨d0, hd0, hm0⟩ := hmem
      rcases List.mem_cons.mp hd0 with he | he
      · subst he
        have hmem1 : m ∈ (extend_messages st d0).1 :=
          extend_messages_mem_of_inv hinv hm0
        obtain ⟨t, ht⟩ := fold_extend_msgs_append deltas (extend_messages st d0)
        rw [ht]
        exact List.mem_append.mpr (Or.inl hmem1)
      · exact ih (extend_messages_SeenInv hinv d) ⟨d0, he, hm0⟩

/-- C6: message deduplication by the `(role, content)` key is idempotent
at every merge point: re-merging a delta immediately after it has been
merged changes nothing, and folding any sequence of deltas that mentions a
`(role, content)` pair (in one delta or in several identical ones) leaves
that pair in the accumulated messages exactly once. -/
theorem dedup_idempotent_C6 :
    (∀ st (d : List ChatMsg),
      extend_messages (extend_messages st d) d = extend_messages st d) ∧
    (∀ (ms : List ChatMsg) (seen : List (String × String))
        (deltas : List (List ChatMsg)) (m : ChatMsg),
      SeenInv (ms, seen) → (∃ d ∈ deltas, m ∈ d) →
      (deltas.foldl extend_messages (ms, seen)).1.count m = 1) := by
  constructor
  · intro st d
    exact extend_messages_skip (fun m hm => extend_messages_key_mem hm st)
  · intro ms seen deltas m hinv hmem
    exact SeenInv_count_eq_one (fold_extend_SeenInv hinv deltas)
      (fold_extend_mem hinv hmem)

/-- Witness for C6: merging the same assistant message through two
successive deltas, starting from the seeded user state, leaves it in the
accumulated messages exactly once. -/
theorem dedup_idempotent_C6_witness :
    SeenInv ([⟨"user", "q"⟩], [("user", "q")]) ∧
    (∃ d ∈ [[(⟨"assistant", "a"⟩ : ChatMsg)], [⟨"assistant", "a"⟩]],
      (⟨"assistant", "a"⟩ : ChatMsg) ∈ d) ∧
    ([[(⟨"assistant", "a"⟩ : ChatMsg)], [⟨"assistant", "a"⟩]].foldl
        extend_messages ([⟨"user", "q"⟩], [("user", "q")])).1.count
      ⟨"assistant", "a"⟩ = 1 := by
  refine ⟨?_, ?_, ?_⟩
  · refine ⟨?_, ?_, ?_⟩ <;> simp [msgKey]
  · exact ⟨[⟨"assistant", "a"⟩], by simp, by simp⟩
  · exact dedup_idempotent_C6.2 [⟨"user", "q"⟩] [("user", "q")]
      [[⟨"assistant", "a"⟩], [⟨"assistant", "a"⟩]] ⟨"assistant", "a"⟩
      (by refine ⟨?_, ?_, ?_⟩ <;> simp [msgKey])
      ⟨[⟨"assistant", "a"⟩], by simp, by simp⟩

/-- C10: `_normalize_messages` is total over arbitrary accumulated message
values and length-preserving: every 2-element list or tuple becomes
`{"role": str(role), "content": str(content)}`, and every value of any
other shape becomes a `"system"` message holding its `str(...)`. -/
theorem normalize_messages_total_C10 :
    (∀ messages : List PyVal,
      (normalizeMessages messages).length = messages.length) ∧
    (∀ (role content : PyVal) (rest : List PyVal),
      normalizeMessages (.vTuple [role, content] :: rest) =
        ⟨pyStr role, pyStr content⟩ :: normalizeMessages rest) ∧
    (∀ (role content : PyVal) (rest : List PyVal),
      normalizeMessages (.vList [role, content] :: rest) =
        ⟨pyStr role, pyStr content⟩ :: normalizeMessages rest) ∧
    (∀ (v : PyVal) (rest : List PyVal), isPair2 v = false →
      normalizeMessages (v :: rest) =
        ⟨"system", pyStr v⟩ :: normalizeMessages rest) := by
  refine ⟨?_, ?_, ?_, ?_⟩
  · intro messages
    simp [normalizeMessages]
  · intro role content rest
    rfl
  · intro role content rest
    rfl
  · intro v rest h
    cases v with
    | vNone => rfl
    | vInt n => rfl
    | vStr s => rfl
    | vList xs =>
        cases xs with
        | nil => rfl
        | cons a t =>
            cases t with
            | nil => rfl
            | cons b t2 =>
                cases t2 with
                | nil => simp [isPair2] at h
                | cons c t3 => rfl
    | vTuple xs =>
        cases xs with
        | nil => rfl
        | cons a t =>
            cases t with
            | nil => rfl
            | cons b t2 =>
                cases t2 with
                | nil => simp [isPair2] at h
                | cons c t3 => rfl

/-- Witness for C10 at a non-pair value (a bare string). -/
theorem normalize_messages_total_C10_witness :
    isPair2 (.vStr "x") = false ∧
    normalizeMessages [.vStr "x"] = [⟨"system", "x"⟩] :=
  ⟨rfl, normalize_messages_total_C10.2.2.2 (.vStr "x") [] rfl⟩

/-- Counterexample to C4 as stated: an exception with an embedded
`status_code` that is present but `0` does not yield that code - Python's
`status or "error"` treats `0` as absent, so the literal `"error"` marker
is produced instead of the embedded code. -/
theorem call_executor_failure_C4_counterexample :
    (⟨some 0, none, "boom"⟩ : PyError).status_code = some 0 ∧
    build_status_from_error ⟨some 0, none, "boom"⟩ =
      ⟨.vStr "error", .vStr "boom"⟩ ∧
    (build_status_from_error ⟨some 0, none, "boom"⟩).status ≠
      PyVal.vInt 0 := by
  refine ⟨rfl, rfl, ?_⟩
  decide

/-- C4 amended: the per-provider call step never raises (it is a total
function of the invoke outcome); every failure is converted to a Failure
outcome with no answer and the stringified error as StatusInfo detail, and
the code is determined case by case: a present nonzero
`error.status_code` *is used* as the code; when `error.status_code` is
absent, a present nonzero `error.response.status_code` is used; in every
remaining case (no code anywhere, or the consulted code present but zero)
the code is the literal `"error"`. -/
theorem call_executor_failure_C4 (q : String) (e : PyError) :
    (call_openai q (.err e)).openai_answer = none ∧
    (call_openai q (.err e)).openai_status =
      some (build_status_from_error e) ∧
    (build_status_from_error e).detail = .vStr e.msg ∧
    (∀ n : Int, e.status_code = some n → n ≠ 0 →
      (build_status_from_error e).status = .vInt n) ∧
    (∀ n : Int, e.status_code = none →
      e.response_status_code = some (some n) → n ≠ 0 →
      (build_status_from_error e).status = .vInt n) ∧
    (e.status_code = some 0 →
      (build_status_from_error e).status = .vStr "error") ∧
    (e.status_code = none →
      (e.response_status_code = none ∨ e.response_status_code = some none ∨
        e.response_status_code = some (some 0)) →
      (build_status_from_error e).status = .vStr "error") := by
  refine ⟨rfl, rfl, rfl, ?_, ?_, ?_, ?_⟩
  · intro n hsc hn
    simp [build_status_from_error, hsc, hn]
  · intro n hsc hrc hn
    simp [build_status_from_error, hsc, hrc, hn]
  · intro hsc
    simp [build_status_from_error, hsc]
  · intro hsc hrc
    rcases hrc with h | h | h <;> simp [build_status_from_error, hsc, h]

/-- Counterexample to C8 as stated: a successful response whose metadata
carries a present `status_code` of `0` does not get that code - the
`or`-chain treats falsy values as absent, so the default `200` is used. -/
theorem success_status_C8_counterexample :
    dictGet [("status_code", PyVal.vInt 0)] "status_code" = .vInt 0 ∧
    build_status_from_response
        ⟨some [("status_code", .vInt 0)], some "ok", "r"⟩ =
      ⟨.vInt 200, .vStr "success"⟩ ∧
    (build_status_from_response
        ⟨some [("status_code", .vInt 0)], some "ok", "r"⟩).status ≠
      PyVal.vInt 0 := by
  refine ⟨rfl, rfl, ?_⟩
  decide

/-- C8 amended: for every successful provider response the answer is the
response content and the derived StatusInfo is attached; its code is the
first *truthy* value among the metadata's `status_code`, `status` and
`http_status` entries when one exists (a present falsy value such as `0`
counts as absent) and otherwise the default success code `200`; its detail
is the first truthy value among `finish_reason` and `reason` when one
exists and otherwise the literal `"success"`. -/
theorem success_status_C8 (q : String) (response : PyResponse) :
    (call_openai q (.ok response)).openai_answer =
      some (contentOf response) ∧
    (call_openai q (.ok response)).openai_status =
      some (build_status_from_response response) ∧
    (build_status_from_response response).status =
      (([dictGet (response.response_metadata.getD []) "status_code",
          dictGet (response.response_metadata.getD []) "status",
          dictGet (response.response_metadata.getD []) "http_status"].find?
            pyTruthy).getD (.vInt 200)) ∧
    (build_status_from_response response).detail =
      (([dictGet (response.response_metadata.getD []) "finish_reason",
          dictGet (response.response_metadata.getD []) "reason"].find?
            pyTruthy).getD (.vStr "success")) := by
  have hmd :
      (match response.response_metadata with
        | some d => if d.isEmpty then [] else d
        | none => []) = response.response_metadata.getD [] := by
    cases response.response_metadata with
    | none => rfl
    | some d =>
        by_cases hd : d.isEmpty
        · rw [List.isEmpty_iff.mp hd]
          simp
        · simp [hd]
  refine ⟨rfl, rfl, ?_, ?_⟩
  · show pyOr
        (pyOr (dictGet _ "status_code")
          (pyOr (dictGet _ "status") (dictGet _ "http_status")))
        (.vInt 200) = _
    rw [hmd]
    by_cases h1 : pyTruthy (dictGet (response.response_metadata.getD [])
        "status_code") = true
    · simp [pyOr, h1]
    · have h1f := Bool.eq_false_iff.mpr h1
      by_cases h2 : pyTruthy (dictGet (response.response_metadata.getD [])
          "status") = true
      · simp [pyOr, h1f, h2]
      · have h2f := Bool.eq_false_iff.mpr h2
        by_cases h3 : pyTruthy (dictGet (response.response_metadata.getD [])
            "http_status") = true
        · simp [pyOr, h1f, h2f, h3]
        · have h3f := Bool.eq_false_iff.mpr h3
          simp [pyOr, h1f, h2f, h3f]
  · show pyOr (dictGet _ "finish_reason")
        (pyOr (dictGet _ "reason") (.vStr "success")) = _
    rw [hmd]
    by_cases h1 : pyTruthy (dictGet (response.response_metadata.getD [])
        "finish_reason") = true
    · simp [pyOr, h1]
    · have h1f := Bool.eq_false_iff.mpr h1
      by_cases h2 : pyTruthy (dictGet (response.response_metadata.getD [])
          "reason") = true
      · simp [pyOr, h1f, h2]
      · have h2f := Bool.eq_false_iff.mpr h2
        simp [pyOr, h1f, h2f]

lemma nodeEvents_length (evs : List (String × GraphState)) :
    (evs.filterMap nodeEventOf).length =
      ((evs.map Prod.fst).filter isConfigNode).length := by
  induction evs with
  | nil => rfl
  | cons ev evs ih =>
      obtain ⟨n, st⟩ := ev
      cases hfind : NODE_CONFIG.find? (fun p => p.1 == n) with
      | none =>
          rw [List.filterMap_cons, nodeEventOf_eq_none hfind]
          have hcfg : isConfigNode n = false := by simp [isConfigNode, hfind]
          simp only [List.map_cons, List.filter_cons, hcfg,
            Bool.false_eq_true, if_false]
          exact ih
      | some kv =>
          rw [List.filterMap_cons, nodeEventOf_eq_some hfind]
          have hcfg : isConfigNode n = true := by simp [isConfigNode, hfind]
          simp only [List.map_cons, List.filter_cons, hcfg, if_true,
            List.length_cons]
          rw [ih]

lemma configNames_labels : configNames.map labelOfName = configLabels := by
  decide

lemma nodeLines_no_error (evs : List (String × GraphState)) :
    ∀ l ∈ (evs.filterMap nodeEventOf).map OutLine.evLine,
      lineIsError l = false := by
  intro l hl
  obtain ⟨e, he, hle⟩ := List.mem_map.mp hl
  have hnode := nodeEvents_all_node evs e he
  cases e with
  | nodeEv model node answer status msgs => rw [← hle]; rfl
  | errEv msg => cases hnode

lemma nodeLines_all_node (evs : List (String × GraphState)) :
    ∀ l ∈ (evs.filterMap nodeEventOf).map OutLine.evLine,
      lineIsNode l = true := by
  intro l hl
  obtain ⟨e, he, hle⟩ := List.mem_map.mp hl
  have hnode := nodeEvents_all_node evs e he
  rw [← hle]
  cases e with
  | nodeEv model node answer status msgs => rfl
  | errEv msg => cases hnode

/-- Counterexample to C1 as stated: when an orchestration fault interrupts
the round, the endpoint's stream is *not* just a prefix of partial events
followed by one error event - at the concrete faulted round below the
stream is the error event followed by a summary event, so no decomposition
into serialized events ending in the error event exists. -/
theorem stream_round_shape_C1_counterexample :
    response_stream "q" (.faults [] "boom") =
      [OutLine.evLine (.errEv "boom"),
        OutLine.summaryLine ⟨"q", [], [], [⟨"user", "q"⟩]⟩] ∧
    ¬ ∃ (pre : List StreamEvent) (m : String),
        response_stream "q" (.faults [] "boom") =
          pre.map OutLine.evLine ++ [OutLine.evLine (.errEv m)] := by
  have h0 : response_stream "q" (.faults [] "boom") =
      [OutLine.evLine (.errEv "boom"),
        OutLine.summaryLine ⟨"q", [], [], [⟨"user", "q"⟩]⟩] := by rfl
  refine ⟨h0, ?_⟩
  rintro ⟨pre, m, h⟩
  rw [h0] at h
  rcases pre with _ | ⟨a, _ | ⟨b, t⟩⟩ <;> simp at h

/-- C1 amended: with the five configured adapters, a round whose dispatch
completes with exactly one item per configured node yields exactly five
partial lines (one per adapter, their models a permutation of the labels)
followed by exactly one summary line.  When an orchestration fault
interrupts the dispatch loop, the stream is a prefix of partial lines,
then exactly one error event, then still exactly one summary line; only a
fault raised before the loop yields a bare error line. -/
theorem stream_round_shape_C1 (q : String) (hq : pyStrip q ≠ "") :
    NODE_CONFIG.length = 5 ∧
    (∀ evs : List (String × GraphState),
      ((evs.map Prod.fst).filter isConfigNode).Perm configNames →
      ∃ pre r, response_stream q (.completes evs) =
          pre ++ [OutLine.summaryLine r] ∧
        (∀ l ∈ pre, lineIsNode l = true) ∧
        pre.length = NODE_CONFIG.length ∧
        (pre.filterMap lineModel).Perm configLabels) ∧
    (∀ evs msg, ∃ pre r,
      response_stream q (.faults evs msg) =
        pre ++ [OutLine.evLine (.errEv msg), OutLine.summaryLine r] ∧
      (∀ l ∈ pre, lineIsNode l = true)) ∧
    (∀ msg, response_stream q (.abortsEarly msg) =
      [OutLine.routeErrLine msg]) := by
  refine ⟨rfl, ?_, ?_, ?_⟩
  · intro evs hperm
    refine ⟨(evs.filterMap nodeEventOf).map OutLine.evLine, _,
      response_stream_completes hq evs, nodeLines_all_node evs, ?_, ?_⟩
    · rw [List.length_map, nodeEvents_length, hperm.length_eq]
      rfl
    · have hm : ((evs.filterMap nodeEventOf).map OutLine.evLine).filterMap
          lineModel = (evs.filterMap nodeEventOf).filterMap eventModel := by
        rw [List.filterMap_map]
        rfl
      rw [hm, nodeEvents_models]
      exact configNames_labels ▸ hperm.map labelOfName
  · intro evs msg
    exact ⟨(evs.filterMap nodeEventOf).map OutLine.evLine, _,
      response_stream_faults hq evs msg, nodeLines_all_node evs⟩
  · intro msg
    exact response_stream_aborts hq msg

/-- Witness for C1 at the concrete complete round `evsRound`. -/
theorem stream_round_shape_C1_witness :
    pyStrip "q" ≠ "" ∧
    ((evsRound.map Prod.fst).filter isConfigNode).Perm configNames ∧
    (∃ pre r, response_stream "q" (.completes evsRound) =
        pre ++ [OutLine.summaryLine r] ∧
      (∀ l ∈ pre, lineIsNode l = true) ∧
      pre.length = NODE_CONFIG.length ∧
      (pre.filterMap lineModel).Perm configLabels) :=
  ⟨by decide, List.Perm.refl _,
    (stream_round_shape_C1 "q" (by decide)).2.1 evsRound (List.Perm.refl _)⟩

/-- Counterexample to C3 as stated: at a concrete round interrupted by an
orchestration fault, the endpoint stream carries the error event at index
1 and a summary event at index 2 - a summary event *is* emitted after the
error event. -/
theorem error_event_terminality_C3_counterexample :
    response_stream "hi" (.faults [("call_openai", emptyState)] "fault") =
      [OutLine.evLine (.nodeEv "OpenAI" "call_openai" none none []),
        OutLine.evLine (.errEv "fault"),
        OutLine.summaryLine ⟨"hi", [("OpenAI", none)], [], [⟨"user", "hi"⟩]⟩] ∧
    (response_stream "hi"
        (.faults [("call_openai", emptyState)] "fault")).get? 1 =
      some (OutLine.evLine (.errEv "fault")) ∧
    (response_stream "hi"
        (.faults [("call_openai", emptyState)] "fault")).get? 2 =
      some (OutLine.summaryLine
        ⟨"hi", [("OpenAI", none)], [], [⟨"user", "hi"⟩]⟩) := by
  refine ⟨?_, ?_, ?_⟩ <;> rfl

/-- C3 amended: for every round in which an orchestration fault occurs,
exactly one error Stream Event carrying the exception's message is
emitted; but a fault inside the dispatch loop is followed by exactly one
summary event (the route emits its summary after the service's error
event), while only a fault raised before the loop ends the stream at the
error event. -/
theorem error_event_terminality_C3 (q : String) (hq : pyStrip q ≠ "") :
    (∀ evs msg,
      (∃ pre r, response_stream q (.faults evs msg) =
          pre ++ [OutLine.evLine (.errEv msg), OutLine.summaryLine r] ∧
        (∀ l ∈ pre, lineIsNode l = true)) ∧
      (response_stream q (.faults evs msg)).countP lineIsError = 1) ∧
    (∀ msg, response_stream q (.abortsEarly msg) =
        [OutLine.routeErrLine msg] ∧
      (response_stream q (.abortsEarly msg)).countP lineIsError = 1) := by
  constructor
  · intro evs msg
    refine ⟨⟨(evs.filterMap nodeEventOf).map OutLine.evLine, _,
      response_stream_faults hq evs msg, nodeLines_all_node evs⟩, ?_⟩
    rw [response_stream_faults hq evs msg, List.countP_append]
    have hz : ((evs.filterMap nodeEventOf).map OutLine.evLine).countP
        lineIsError = 0 := by
      rw [List.countP_eq_zero]
      intro l hl
      rw [nodeLines_no_error evs l hl]
      exact Bool.false_ne_true
    rw [hz]
    rfl
  · intro msg
    rw [response_stream_aborts hq msg]
    exact ⟨rfl, rfl⟩

/-- Witness for C3 at a concrete in-loop fault and a concrete pre-loop
fault. -/
theorem error_event_terminality_C3_witness :
    pyStrip "hi" ≠ "" ∧
    ((∃ pre r,
        response_stream "hi" (.faults [("call_openai", emptyState)] "fault") =
          pre ++ [OutLine.evLine (.errEv "fault"), OutLine.summaryLine r] ∧
        (∀ l ∈ pre, lineIsNode l = true)) ∧
      (response_stream "hi"
        (.faults [("call_openai", emptyState)] "fault")).countP
          lineIsError = 1) ∧
    response_stream "hi" (.abortsEarly "down") =
      [OutLine.routeErrLine "down"] :=
  ⟨by decide,
    (error_event_terminality_C3 "hi" (by decide)).1
      [("call_openai", emptyState)] "fault",
    ((error_event_terminality_C3 "hi" (by decide)).2 "down").1⟩

/-- Counterexample to C2 as stated: at a concrete complete round the
summary's `result` object carries exactly the keys `question`, `answers`,
`api_status` and `messages` - it has no `completion_order` key and no
`errors` key, so the Result does not contain the claimed
`completion_order` or `errors` sequences. -/
theorem summary_result_fields_C2_counterexample :
    (response_stream "q" (.completes evsRound)).getLast? =
      some (OutLine.summaryLine
        ⟨"q",
          [("OpenAI", some "pong"), ("Gemini", none), ("Anthropic", none),
            ("Perplexity", none), ("Upstage", none)],
          [("OpenAI", ⟨.vInt 200, .vStr "stop"⟩)],
          [⟨"user", "q"⟩, ⟨"assistant", "[OpenAI] AIMessage"⟩]⟩) ∧
    jTopKeys (resultToJ
        ⟨"q",
          [("OpenAI", some "pong"), ("Gemini", none), ("Anthropic", none),
            ("Perplexity", none), ("Upstage", none)],
          [("OpenAI", ⟨.vInt 200, .vStr "stop"⟩)],
          [⟨"user", "q"⟩, ⟨"assistant", "[OpenAI] AIMessage"⟩]⟩) =
      ["question", "answers", "api_status", "messages"] ∧
    jLookup (resultToJ
        ⟨"q",
          [("OpenAI", some "pong"), ("Gemini", none), ("Anthropic", none),
            ("Perplexity", none), ("Upstage", none)],
          [("OpenAI", ⟨.vInt 200, .vStr "stop"⟩)],
          [⟨"user", "q"⟩, ⟨"assistant", "[OpenAI] AIMessage"⟩]⟩)
      "completion_order" = none ∧
    jLookup (resultToJ
        ⟨"q",
          [("OpenAI", some "pong"), ("Gemini", none), ("Anthropic", none),
            ("Perplexity", none), ("Upstage", none)],
          [("OpenAI", ⟨.vInt 200, .vStr "stop"⟩)],
          [⟨"user", "q"⟩, ⟨"assistant", "[OpenAI] AIMessage"⟩]⟩)
      "errors" = none := by
  refine ⟨?_, ?_, ?_, ?_⟩ <;> rfl

/-- C2 amended: the summary's Result contains exactly the question, the
answers map, the api_status map and the deduplicated ordered messages - no
`completion_order` and no `errors` sequence exist in it.  For a complete
round the answers map has one entry per adapter: its keys (in completion
order) are a permutation of all adapter identities, length N, no
duplicates; the api_status keys are adapter identities; and the message
keys are duplicate-free. -/
theorem summary_result_fields_C2 (q : String) (hq : pyStrip q ≠ "")
    (evs : List (String × GraphState))
    (hperm : ((evs.map Prod.fst).filter isConfigNode).Perm configNames) :
    ∃ pre r, response_stream q (.completes evs) =
        pre ++ [OutLine.summaryLine r] ∧
      r.question = q ∧
      jTopKeys (resultToJ r) =
        ["question", "answers", "api_status", "messages"] ∧
      jLookup (resultToJ r) "completion_order" = none ∧
      jLookup (resultToJ r) "errors" = none ∧
      (r.answers.map Prod.fst).Perm configLabels ∧
      (r.answers.map Prod.fst).Nodup ∧
      r.answers.length = NODE_CONFIG.length ∧
      (∀ k ∈ r.api_status.map Prod.fst, k ∈ configLabels) ∧
      (r.messages.map msgKey).Nodup := by
  have hpermL : ((evs.filterMap nodeEventOf).filterMap eventModel).Perm
      configLabels :=
    nodeEvents_models evs ▸ configNames_labels ▸ hperm.map labelOfName
  have hndL : configLabels.Nodup := by decide
  have hnd : ((evs.filterMap nodeEventOf).filterMap eventModel).Nodup :=
    hpermL.nodup_iff.mpr hndL
  have hkeys := @fold_answers_keys (evs.filterMap nodeEventOf) (initAcc q)
    hnd (by intro m hm; simp [initAcc])
  have hinv : SeenInv ((initAcc q).messages, (initAcc q).seen) := by
    refine ⟨?_, ?_, ?_⟩ <;> simp [initAcc, msgKey]
  refine ⟨(evs.filterMap nodeEventOf).map OutLine.evLine, _,
    response_stream_completes hq evs, rfl, rfl, rfl, rfl, ?_, ?_, ?_, ?_, ?_⟩
  · rw [hkeys]
    simpa [initAcc] using hpermL
  · rw [hkeys]
    simpa [initAcc] using hnd
  · have hlen : (((evs.filterMap nodeEventOf).foldl foldEvent
        (initAcc q)).answers.map Prod.fst).length =
        configLabels.length := by
      rw [hkeys]
      simpa [initAcc] using hpermL.length_eq
    rw [List.length_map] at hlen
    exact hlen
  · intro k hk
    rcases fold_api_keys_mem hk with hin | hin
    · simp [initAcc] at hin
    · exact hpermL.mem_iff.mp hin
  · exact (fold_SeenInv hinv (evs.filterMap nodeEventOf)).2.2

/-- Witness for C2 at the concrete complete round `evsRound`. -/
theorem summary_result_fields_C2_witness :
    pyStrip "q" ≠ "" ∧
    ((evsRound.map Prod.fst).filter isConfigNode).Perm configNames ∧
    (∃ pre r, response_stream "q" (.completes evsRound) =
        pre ++ [OutLine.summaryLine r] ∧
      r.question = "q" ∧
      jTopKeys (resultToJ r) =
        ["question", "answers", "api_status", "messages"] ∧
      jLookup (resultToJ r) "completion_order" = none ∧
      jLookup (resultToJ r) "errors" = none ∧
      (r.answers.map Prod.fst).Perm configLabels ∧
      (r.answers.map Prod.fst).Nodup ∧
      r.answers.length = NODE_CONFIG.length ∧
      (∀ k ∈ r.api_status.map Prod.fst, k ∈ configLabels) ∧
      (r.messages.map msgKey).Nodup) :=
  ⟨by decide, List.Perm.refl _,
    summary_result_fields_C2 "q" (by decide) evsRound (List.Perm.refl _)⟩

lemma build_status_error_cases (e : PyError) :
    (build_status_from_error e).status = .vStr "error" ∨
      ∃ n : Int, (build_status_from_error e).status = .vInt n := by
  obtain ⟨sc, rsc, m⟩ := e
  cases sc with
  | some n =>
      by_cases hn : n = 0
      · subst hn; left; rfl
      · right; exact ⟨n, by simp [build_status_from_error, hn]⟩
  | none =>
      cases rsc with
      | none => left; rfl
      | some rc =>
          cases rc with
          | none => left; rfl
          | some n =>
              by_cases hn : n = 0
              · subst hn; left; rfl
              · right; exact ⟨n, by simp [build_status_from_error, hn]⟩

/-- Counterexample to C7 as stated: at a concrete complete round in which
the OpenAI call fails, the summary Result has no `errors` sequence at all,
so the failed provider cannot appear in one. -/
theorem failed_provider_summary_C7_counterexample :
    (response_stream "q"
        (.completes [("call_openai", call_openai "q" (.err errBoom))])).getLast?
      = some (OutLine.summaryLine
        ⟨"q", [("OpenAI", none)],
          [("OpenAI", ⟨.vStr "error", .vStr "boom"⟩)],
          [⟨"user", "q"⟩, ⟨"assistant", "[OpenAI 오류] boom"⟩]⟩) ∧
    jLookup (resultToJ
        ⟨"q", [("OpenAI", none)],
          [("OpenAI", ⟨.vStr "error", .vStr "boom"⟩)],
          [⟨"user", "q"⟩, ⟨"assistant", "[OpenAI 오류] boom"⟩]⟩) "errors" =
      none := by
  refine ⟨?_, ?_⟩ <;> rfl

/-- C7 amended: for a provider whose call fails (here OpenAI, the other
four nodes being line-for-line identical), the summary Result records
`answers["OpenAI"] = null`, and `api_status["OpenAI"]` is present with the
stringified error as detail and the literal `"error"` marker or a numeric
code as status; but the Result carries no `errors` sequence for the
provider to appear in. -/
theorem failed_provider_summary_C7 (q : String) (hq : pyStrip q ≠ "")
    (e : PyError) (pre post : List (String × GraphState))
    (hpost : "call_openai" ∉ post.map Prod.fst) :
    ∃ pr r, response_stream q
        (.completes (pre ++ ("call_openai", call_openai q (.err e)) :: post)) =
      pr ++ [OutLine.summaryLine r] ∧
      dictLookup r.answers "OpenAI" = some none ∧
      (∃ s, dictLookup r.api_status "OpenAI" = some s ∧
        s.detail = .vStr e.msg ∧
        (s.status = .vStr "error" ∨ ∃ n : Int, s.status = .vInt n)) ∧
      jLookup (resultToJ r) "errors" = none := by
  have hmid : nodeEventOf ("call_openai", call_openai q (.err e)) =
      some (.nodeEv "OpenAI" "call_openai" none
        (some (build_status_from_error e))
        (normalizeMessages [format_response_message "OpenAI 오류" e.msg])) :=
    rfl
  have hsplit : (pre ++ ("call_openai", call_openai q (.err e)) :: post).filterMap
      nodeEventOf =
      pre.filterMap nodeEventOf ++
        (StreamEvent.nodeEv "OpenAI" "call_openai" none
          (some (build_status_from_error e))
          (normalizeMessages [format_response_message "OpenAI 오류" e.msg])) ::
        post.filterMap nodeEventOf := by
    rw [List.filterMap_append, List.filterMap_cons, hmid]
  have hfrozen := filterMap_eventModel_of_no_openai hpost
  refine ⟨((pre ++ ("call_openai", call_openai q (.err e)) :: post).filterMap
      nodeEventOf).map OutLine.evLine, _,
    response_stream_completes hq _, ?_, ?_, rfl⟩
  · rw [hsplit, List.foldl_append, List.foldl_cons,
      fold_answers_lookup_frozen hfrozen,
      foldEvent_answers_node _ (by decide) _ _ _ _,
      dictLookup_dictUpsert_self]
  · refine ⟨build_status_from_error e, ?_, rfl, build_status_error_cases e⟩
    rw [hsplit, List.foldl_append, List.foldl_cons,
      fold_api_lookup_frozen hfrozen,
      foldEvent_api_status_some _ (by decide) _ _ _ _,
      dictLookup_dictUpsert_self]

/-- Witness for C7 at the concrete failing round (a single failing OpenAI
call). -/
theorem failed_provider_summary_C7_witness :
    pyStrip "q" ≠ "" ∧
    (∃ pr r, response_stream "q"
        (.completes ([] ++ ("call_openai", call_openai "q" (.err errBoom)) ::
          [])) =
      pr ++ [OutLine.summaryLine r] ∧
      dictLookup r.answers "OpenAI" = some none ∧
      (∃ s, dictLookup r.api_status "OpenAI" = some s ∧
        s.detail = .vStr errBoom.msg ∧
        (s.status = .vStr "error" ∨ ∃ n : Int, s.status = .vInt n)) ∧
      jLookup (resultToJ r) "errors" = none) :=
  ⟨by decide,
    failed_provider_summary_C7 "q" (by decide) errBoom [] [] (by simp)⟩

/-- Witness for C4: the nonzero embedded `status_code` of `errHttp` (404)
is used as the code, the nonzero `response.status_code` of `errResp`
(503) is used when `status_code` is absent, and the codeless `errBoom`
yields the `"error"` marker. -/
theorem call_executor_failure_C4_witness :
    errHttp.status_code = some 404 ∧ (404 : Int) ≠ 0 ∧
    (build_status_from_error errHttp).status = .vInt 404 ∧
    errResp.status_code = none ∧
    errResp.response_status_code = some (some 503) ∧ (503 : Int) ≠ 0 ∧
    (build_status_from_error errResp).status = .vInt 503 ∧
    (call_openai "q" (.err errHttp)).openai_answer = none ∧
    (build_status_from_error errHttp).detail = .vStr errHttp.msg ∧
    (build_status_from_error errBoom).status = .vStr "error" :=
  ⟨rfl, by decide,
    (call_executor_failure_C4 "q" errHttp).2.2.2.1 404 rfl (by decide),
    rfl, rfl, by decide,
    (call_executor_failure_C4 "q" errResp).2.2.2.2.1 503 rfl rfl (by decide),
    (call_executor_failure_C4 "q" errHttp).1,
    (call_executor_failure_C4 "q" errHttp).2.2.1,
    (call_executor_failure_C4 "q" errBoom).2.2.2.2.2.2 rfl (Or.inl rfl)⟩

/-- Witness for C8 at the concrete successful response `okResponse`. -/
theorem success_status_C8_witness :
    (call_openai "q" (.ok okResponse)).openai_answer =
      some (contentOf okResponse) ∧
    (call_openai "q" (.ok okResponse)).openai_status =
      some (build_status_from_response okResponse) ∧
    (build_status_from_response okResponse).status =
      (([dictGet (okResponse.response_metadata.getD []) "status_code",
          dictGet (okResponse.response_metadata.getD []) "status",
          dictGet (okResponse.response_metadata.getD []) "http_status"].find?
            pyTruthy).getD (.vInt 200)) ∧
    (build_status_from_response okResponse).detail =
      (([dictGet (okResponse.response_metadata.getD []) "finish_reason",
          dictGet (okResponse.response_metadata.getD []) "reason"].find?
            pyTruthy).getD (.vStr "success")) :=
  success_status_C8 "q" okResponse

/-- Witness for C9 at a concrete question and event list. -/
theorem user_message_invariant_C9_witness :
    (initAcc "q").messages = [⟨"user", "q"⟩] ∧
    (initAcc "q").seen = [("user", "q")] ∧
    ([StreamEvent.errEv "x"].foldl foldEvent (initAcc "q")).messages.head? =
      some ⟨"user", "q"⟩ ∧
    ([StreamEvent.errEv "x"].foldl foldEvent
      (initAcc "q")).messages.count ⟨"user", "q"⟩ = 1 :=
  user_message_invariant_C9 "q" [.errEv "x"]
